import Mathlib

/-!
Shallow embedding of the kobject-uevent crate (src/lib.rs): the action
vocabulary, the KEY=VALUE field parser, the netlink packet decoder and the
sysfs snapshot decoder, together with theorems settling the spec claims.

Modelling conventions:
- Rust `u64` values are `Nat` with an explicit `≤ u64Max` overflow check where
  the source checks overflow (`str::parse::<u64>`).
- `HashMap<String, String>` with overwriting `insert` is modelled as the
  insertion history `List (String × String)` (each insert appends a pair);
  the map reading of the history is `envGet`, which returns the value of the
  last binding of a key (last-write-wins), exactly the observable behaviour
  of the overwriting hash map.
- Byte buffers are `List Nat` (each entry one byte); `utf8Decode` is the
  UTF-8 validation/decoding performed by `str::from_utf8` and returns the
  list of decoded code points, or `none` for invalid input.
- The filesystem reads of `from_sysfs_path` are abstracted into a `SysfsDir`
  record carrying what the three OS calls (`read_to_string`, `read_link`,
  `canonicalize`) would return, `none` meaning the call fails with an I/O
  error; paths coming from the OS are lists of components.
-/

deriving instance DecidableEq for Except

namespace KUEvent

/-- Error taxonomy of the crate (`enum Error`).  `ioError` stands for the
wrapped `io::Error` payload, whose contents the crate never inspects. -/
inductive Error where
  | unexpectedAction (s : String)
  | invalidDevPath (s : String)
  | invalidSeqNum (s : String)
  | ioError
  | notInsideMountpoint
  | notUtf8
  | actionNotFound
  | devPathNotFound
  | subsystemNotFound
  | seqMissing
deriving DecidableEq, Repr

/-- KObject action types (`enum ActionType`). -/
inductive ActionType where
  | add
  | remove
  | change
  | move
  | online
  | offline
  | bind
  | unbind
deriving DecidableEq, Repr

/-- `impl FromStr for ActionType`: exact, case-sensitive match of the eight
lowercase tokens; anything else is `Error::UnexpectedAction` carrying the
offending token. -/
def ActionType.from_str (s : String) : Except Error ActionType :=
  if s = "add" then .ok .add
  else if s = "remove" then .ok .remove
  else if s = "change" then .ok .change
  else if s = "move" then .ok .move
  else if s = "online" then .ok .online
  else if s = "offline" then .ok .offline
  else if s = "bind" then .ok .bind
  else if s = "unbind" then .ok .unbind
  else .error (.unexpectedAction s)

/-- `PathBuf`: an owned path, stored as the raw string it was built from. -/
structure PathBuf where
  s : String
deriving DecidableEq, Repr

/-- `impl FromStr for PathBuf` has `Err = Infallible`: converting a string
to a `PathBuf` always succeeds.  The `Option` result records the shape the
call site sees (`parse::<PathBuf>().map_err(...)`); it is never `none`. -/
def PathBuf.from_str (s : String) : Option PathBuf :=
  some ⟨s⟩

/-- The fully validated record (`struct UEvent`). -/
structure UEvent where
  action : ActionType
  devpath : PathBuf
  subsystem : String
  env : List (String × String)
  seq : Nat
deriving DecidableEq, Repr

/-- The internal partial record (`struct MaybeUEvent`). -/
structure MaybeUEvent where
  action : Option ActionType
  devpath : Option PathBuf
  subsystem : Option String
  env : List (String × String)
  seq : Option Nat
deriving DecidableEq, Repr

/-- The state of `parse_uevent_iter` before any line is processed: all
recognized slots empty, empty env map. -/
def emptyMaybe : MaybeUEvent :=
  ⟨none, none, none, [], none⟩

/-- `str::split_once` on a list of characters: split at the FIRST occurrence
of `c`; `none` when `c` does not occur. -/
def splitOnceList (c : Char) : List Char → Option (List Char × List Char)
  | [] => none
  | x :: xs =>
    if x = c then some ([], xs)
    else (splitOnceList c xs).map (fun p => (x :: p.1, p.2))

/-- `str::split_once` on strings. -/
def splitOnce (c : Char) (s : String) : Option (String × String) :=
  (splitOnceList c s.data).map (fun p => (⟨p.1⟩, ⟨p.2⟩))

/-- `u64::MAX`. -/
def u64Max : Nat := 18446744073709551615

/-- Decimal digit value of a character, `none` for a non-digit. -/
def digitVal (c : Char) : Option Nat :=
  if '0' ≤ c ∧ c ≤ '9' then some (c.toNat - '0'.toNat) else none

/-- Digit-accumulation loop of `u64::from_str`: each step performs the
checked multiply-and-add, failing on a non-digit or on u64 overflow. -/
def parseU64Digits (acc : Nat) : List Char → Option Nat
  | [] => some acc
  | c :: cs =>
    match digitVal c with
    | none => none
    | some d =>
      if acc * 10 + d ≤ u64Max then parseU64Digits (acc * 10 + d) cs else none

/-- `str::parse::<u64>`: optional leading `+`, then one or more decimal
digits, value at most `u64::MAX`; everything else is a failure. -/
def parseU64 (s : String) : Option Nat :=
  match s.data with
  | [] => none
  | '+' :: rest => if rest.isEmpty then none else parseU64Digits 0 rest
  | cs => parseU64Digits 0 cs

/-- One iteration of the `for f in iter` loop of `parse_uevent_iter`:
process one line against the accumulated partial record. -/
def stepLine (st : MaybeUEvent) (f : String) : Except Error MaybeUEvent :=
  match splitOnce '=' f with
  | none => .ok st
  | some (key, value) =>
    if key = "ACTION" then
      match ActionType.from_str value with
      | .error e => .error e
      | .ok a => .ok { st with action := some a, env := st.env ++ [(key, value)] }
    else if key = "DEVPATH" then
      match PathBuf.from_str value with
      | none => .error (.invalidDevPath value)
      | some p => .ok { st with devpath := some p, env := st.env ++ [(key, value)] }
    else if key = "SUBSYSTEM" then
      .ok { st with subsystem := some value, env := st.env ++ [(key, value)] }
    else if key = "SEQNUM" then
      match parseU64 value with
      | none => .error (.invalidSeqNum value)
      | some n => .ok { st with seq := some n, env := st.env ++ [(key, value)] }
    else
      .ok { st with env := st.env ++ [(key, value)] }

/-- The loop of `parse_uevent_iter`, folding `stepLine` from a given state;
the first error aborts the whole parse. -/
def parseLines (st : MaybeUEvent) : List String → Except Error MaybeUEvent
  | [] => .ok st
  | l :: ls =>
    match stepLine st l with
    | .error e => .error e
    | .ok st1 => parseLines st1 ls

/-- `fn parse_uevent_iter`: parse key=value lines into a `MaybeUEvent`. -/
def parse_uevent_iter (lines : List String) : Except Error MaybeUEvent :=
  parseLines emptyMaybe lines

/-- Map reading of the env insertion history: value of the last binding of
`k` (last-write-wins), the observable lookup of the overwriting hash map. -/
def envGet (env : List (String × String)) (k : String) : Option String :=
  env.foldl (fun acc kv => if kv.1 = k then some kv.2 else acc) none

/-- Value of the last binding of `k` in a raw key/value list. -/
def lastAssocVal (l : List (String × String)) (k : String) : Option String :=
  l.foldl (fun acc kv => if kv.1 = k then some kv.2 else acc) none

/-- Is `b` a UTF-8 continuation byte (`0x80..=0xBF`)? -/
def isCont (b : Nat) : Bool :=
  0x80 ≤ b && b < 0xC0

/-- UTF-8 validation and decoding as performed by `str::from_utf8`: strict
shortest-form decoding, surrogates and code points above `0x10FFFF`
rejected.  Returns the decoded code points, or `none` for invalid input. -/
def utf8Decode : List Nat → Option (List Nat)
  | [] => some []
  | b :: rest =>
    if b < 0x80 then (utf8Decode rest).map (fun cs => b :: cs)
    else if b < 0xC2 then none
    else if b < 0xE0 then
      match rest with
      | b1 :: r =>
        if isCont b1 then
          (utf8Decode r).map (fun cs => ((b - 0xC0) * 0x40 + (b1 - 0x80)) :: cs)
        else none
      | [] => none
    else if b < 0xF0 then
      match rest with
      | b1 :: b2 :: r =>
        if (if b = 0xE0 then decide (0xA0 ≤ b1) && decide (b1 < 0xC0)
            else if b = 0xED then decide (0x80 ≤ b1) && decide (b1 < 0xA0)
            else isCont b1) && isCont b2 then
          (utf8Decode r).map
            (fun cs => ((b - 0xE0) * 0x1000 + (b1 - 0x80) * 0x40 + (b2 - 0x80)) :: cs)
        else none
      | _ => none
    else if b < 0xF5 then
      match rest with
      | b1 :: b2 :: b3 :: r =>
        if (if b = 0xF0 then decide (0x90 ≤ b1) && decide (b1 < 0xC0)
            else if b = 0xF4 then decide (0x80 ≤ b1) && decide (b1 < 0x90)
            else isCont b1) && isCont b2 && isCont b3 then
          (utf8Decode r).map
            (fun cs =>
              ((b - 0xF0) * 0x40000 + (b1 - 0x80) * 0x1000
                + (b2 - 0x80) * 0x40 + (b3 - 0x80)) :: cs)
        else none
      | _ => none
    else none

/-- `str::split` on a single character: split at every occurrence of `c`,
keeping empty segments; the empty input yields one empty segment. -/
def splitOnChar (c : Char) : List Char → List (List Char)
  | [] => [[]]
  | x :: xs =>
    let r := splitOnChar c xs
    if x = c then [] :: r
    else
      match r with
      | s :: ss => (x :: s) :: ss
      | [] => [[x]]

/-- The lines a netlink packet presents to the parser:
`from_utf8(pkt)?.split('\0')`, or `none` when the buffer is not UTF-8. -/
def netlinkLines (pkt : List Nat) : Option (List String) :=
  (utf8Decode pkt).map
    (fun cps => (splitOnChar (Char.ofNat 0) (cps.map Char.ofNat)).map String.mk)

/-- `UEvent::from_netlink_packet`: decode the buffer as UTF-8, split on NUL,
parse the fields, then require all four recognized fields, each absence its
own error. -/
def from_netlink_packet (pkt : List Nat) : Except Error UEvent :=
  match netlinkLines pkt with
  | none => .error .notUtf8
  | some lines =>
    match parse_uevent_iter lines with
    | .error e => .error e
    | .ok m =>
      match m.action with
      | none => .error .actionNotFound
      | some action =>
        match m.devpath with
        | none => .error .devPathNotFound
        | some devpath =>
          match m.subsystem with
          | none => .error .subsystemNotFound
          | some subsystem =>
            match m.seq with
            | none => .error .seqMissing
            | some seq => .ok ⟨action, devpath, subsystem, m.env, seq⟩

/-- Drop one trailing carriage return, for `str::lines`' `\r\n` handling. -/
def stripCr (l : List Char) : List Char :=
  if l.getLast? = some (Char.ofNat 13) then l.dropLast else l

/-- `str::lines`, second half: every segment except the final one was
terminated by `\n` and loses a trailing `\r`; a final empty segment (the
text ended in `\n`) is dropped. -/
def linesAux : List (List Char) → List (List Char)
  | [] => []
  | [last] => if last.isEmpty then [] else [last]
  | seg :: rest => stripCr seg :: linesAux rest

/-- `str::lines`: split on `\n`, dropping a final empty line and a `\r`
before each `\n`. -/
def linesOf (s : String) : List String :=
  (linesAux (splitOnChar (Char.ofNat 10) s.data)).map String.mk

/-- What the three OS calls made by `from_sysfs_path` return for a given
device directory, `none` meaning the call fails with an I/O error:
the contents of `<dir>/uevent`, the target of the `<dir>/subsystem`
symbolic link (as path components), and the canonicalized absolute path of
the directory (as path components). -/
structure SysfsDir where
  ueventContents : Option String
  subsystemLink : Option (List String)
  canonical : Option (List String)
deriving DecidableEq, Repr

/-- `Path::file_name` on a component list: the last component, unless it is
`..` or there is none. -/
def fileNameOf (components : List String) : Option String :=
  match components.getLast? with
  | none => none
  | some c => if c = ".." then none else some c

/-- `Path::strip_prefix` on component lists: the suffix left after removing
`pre`, or `none` when `pre` is not a prefix. -/
def componentsAfter (pre p : List String) : Option (List String) :=
  match pre, p with
  | [], rest => some rest
  | _ :: _, [] => none
  | a :: xs, b :: ys => if a = b then componentsAfter xs ys else none

/-- `Path::new("/").join(suffix)`: the suffix components re-rooted at `/`. -/
def joinRoot (suffix : List String) : PathBuf :=
  ⟨"/" ++ String.intercalate "/" suffix⟩

/-- `UEvent::from_sysfs_path` over the abstracted filesystem: read the
`uevent` file and the `subsystem` link, parse the file's lines keeping only
the env mapping, force the action to `Add` and the sequence number to `0`,
re-root the canonical path under the mountpoint, and name the subsystem
after the link target's final component. -/
def from_sysfs_path (d : SysfsDir) (mountpoint : List String) : Except Error UEvent :=
  match d.ueventContents with
  | none => .error .ioError
  | some uevent =>
    match d.subsystemLink with
    | none => .error .ioError
    | some subsystemPath =>
      match parse_uevent_iter (linesOf uevent) with
      | .error e => .error e
      | .ok m =>
        match d.canonical with
        | none => .error .ioError
        | some canon =>
          match componentsAfter mountpoint canon with
          | none => .error .notInsideMountpoint
          | some suffix =>
            match fileNameOf subsystemPath with
            | none => .error .subsystemNotFound
            | some subsystem =>
              .ok ⟨ActionType.add, joinRoot suffix, subsystem, m.env, 0⟩

/-! ## Helper lemmas about the field parser -/

theorem parseLines_append (l1 l2 : List String) (st : MaybeUEvent) :
    parseLines st (l1 ++ l2) =
      match parseLines st l1 with
      | .error e => .error e
      | .ok st1 => parseLines st1 l2 := by
  induction l1 generalizing st with
  | nil => simp [parseLines]
  | cons l ls ih =>
    simp only [List.cons_append, parseLines]
    cases stepLine st l with
    | error e => rfl
    | ok st1 => exact ih st1

theorem splitOnceList_eq_none_iff (c : Char) (l : List Char) :
    splitOnceList c l = none ↔ c ∉ l := by
  induction l with
  | nil => simp [splitOnceList]
  | cons x xs ih =>
    by_cases hx : x = c
    · subst hx
      simp [splitOnceList]
    · have hrw : splitOnceList c (x :: xs)
          = (splitOnceList c xs).map (fun p => (x :: p.1, p.2)) := by
        simp [splitOnceList, hx]
      have hcx : ¬(c = x) := fun hh => hx hh.symm
      rw [hrw, Option.map_eq_none', ih]
      simp [List.mem_cons, hcx]

theorem splitOnceList_first (c : Char) (ks vs : List Char) (h : c ∉ ks) :
    splitOnceList c (ks ++ c :: vs) = some (ks, vs) := by
  induction ks with
  | nil => simp [splitOnceList]
  | cons x xs ih =>
    simp only [List.mem_cons, not_or] at h
    have hxc : ¬(x = c) := fun hh => h.1 hh.symm
    simp [splitOnceList, hxc, ih h.2]

theorem splitOnce_key_value (k v : String) (h : '=' ∉ k.data) :
    splitOnce '=' (k ++ "=" ++ v) = some (k, v) := by
  have hdata : (k ++ "=" ++ v).data = k.data ++ '=' :: v.data := by
    simp [String.data_append]
  simp [splitOnce, hdata, splitOnceList_first '=' k.data v.data h]

theorem splitOnce_eq_none (l : String) (h : '=' ∉ l.data) :
    splitOnce '=' l = none := by
  simp [splitOnce, (splitOnceList_eq_none_iff '=' l.data).mpr h]

theorem stepLine_no_eq (st : MaybeUEvent) (l : String) (h : '=' ∉ l.data) :
    stepLine st l = .ok st := by
  simp [stepLine, splitOnce_eq_none l h]

theorem action_from_str_error (v : String) (e : Error)
    (h : ActionType.from_str v = .error e) : e = .unexpectedAction v := by
  unfold ActionType.from_str at h
  split_ifs at h
  all_goals simp_all

/-- The env field of the state after one successful `stepLine`:
the key/value pair of the line (if any) is appended. -/
theorem stepLine_env (st st1 : MaybeUEvent) (l : String)
    (h : stepLine st l = .ok st1) :
    st1.env = st.env ++ (match splitOnce '=' l with
      | none => []
      | some kv => [kv]) := by
  unfold stepLine at h
  cases hs : splitOnce '=' l with
  | none => rw [hs] at h; cases h; simp
  | some kv =>
    obtain ⟨key, value⟩ := kv
    rw [hs] at h
    simp only at h
    split_ifs at h with h1 h2 h3 h4
    · cases ha : ActionType.from_str value with
      | error e => rw [ha] at h; cases h
      | ok a => rw [ha] at h; cases h; simp
    · rw [show PathBuf.from_str value = some ⟨value⟩ from rfl] at h
      cases h; simp
    · cases h; simp
    · cases hq : parseU64 value with
      | none => rw [hq] at h; cases h
      | some n => rw [hq] at h; cases h; simp
    · cases h; simp

/-- The subsystem slot after one successful `stepLine`: set to the value of
a `SUBSYSTEM` line, untouched otherwise. -/
theorem stepLine_subsystem (st st1 : MaybeUEvent) (l : String)
    (h : stepLine st l = .ok st1) :
    st1.subsystem = (match splitOnce '=' l with
      | none => st.subsystem
      | some kv => if kv.1 = "SUBSYSTEM" then some kv.2 else st.subsystem) := by
  unfold stepLine at h
  cases hs : splitOnce '=' l with
  | none => rw [hs] at h; cases h; simp
  | some kv =>
    obtain ⟨key, value⟩ := kv
    rw [hs] at h
    simp only at h
    split_ifs at h with h1 h2 h3 h4
    · cases ha : ActionType.from_str value with
      | error e => rw [ha] at h; cases h
      | ok a => rw [ha] at h; cases h; simp [h1]
    · rw [show PathBuf.from_str value = some ⟨value⟩ from rfl] at h
      cases h; simp [h2]
    · cases h; simp [h3]
    · cases hq : parseU64 value with
      | none => rw [hq] at h; cases h
      | some n => rw [hq] at h; cases h; simp [h4]
    · cases h; simp_all

/-- The kv pairs a list of lines contributes to the env mapping. -/
def kvsOf (lines : List String) : List (String × String) :=
  lines.filterMap (fun l => splitOnce '=' l)

/-- A successful parse accumulates exactly the split pairs of its lines,
in order, on top of the initial env. -/
theorem parseLines_env (lines : List String) (st m : MaybeUEvent)
    (h : parseLines st lines = .ok m) :
    m.env = st.env ++ kvsOf lines := by
  induction lines generalizing st with
  | nil =>
    cases h
    simp [kvsOf]
  | cons l ls ih =>
    unfold parseLines at h
    cases hstep : stepLine st l with
    | error e => rw [hstep] at h; cases h
    | ok st1 =>
      rw [hstep] at h
      have he := stepLine_env st st1 l hstep
      have := ih st1 h
      rw [this, he]
      cases hs : splitOnce '=' l <;>
        simp [kvsOf, hs, List.filterMap_cons]

/-- A successful parse leaves in the subsystem slot the value of the last
`SUBSYSTEM` line, folded left over the split pairs. -/
theorem parseLines_subsystem (lines : List String) (st m : MaybeUEvent)
    (h : parseLines st lines = .ok m) :
    m.subsystem = (kvsOf lines).foldl
      (fun acc kv => if kv.1 = "SUBSYSTEM" then some kv.2 else acc)
      st.subsystem := by
  induction lines generalizing st with
  | nil =>
    cases h
    simp [kvsOf]
  | cons l ls ih =>
    unfold parseLines at h
    cases hstep : stepLine st l with
    | error e => rw [hstep] at h; cases h
    | ok st1 =>
      rw [hstep] at h
      have hsub := stepLine_subsystem st st1 l hstep
      have := ih st1 h
      rw [this, hsub]
      cases hs : splitOnce '=' l <;>
        simp [kvsOf, hs, List.filterMap_cons]

/-- The last-binding fold is `some` as soon as the key occurs (or the
accumulator already is). -/
theorem lastAssoc_foldl_ne_none (k : String) (l : List (String × String))
    (acc : Option String)
    (h : acc ≠ none ∨ ∃ v, (k, v) ∈ l) :
    l.foldl (fun acc kv => if kv.1 = k then some kv.2 else acc) acc ≠ none := by
  induction l generalizing acc with
  | nil =>
    rcases h with h | ⟨v, hv⟩
    · simpa using h
    · simp at hv
  | cons kv l ih =>
    simp only [List.foldl_cons]
    rcases h with h | ⟨v, hv⟩
    · refine ih _ (Or.inl ?_)
      split_ifs with hk
      · simp
      · exact h
    · rcases List.mem_cons.mp hv with hv | hv
      · refine ih _ (Or.inl ?_)
        rw [← hv]
        simp
      · exact ih _ (Or.inr ⟨v, hv⟩)

/-! ## Further helpers for the claim theorems -/

/-- The eight valid action tokens, in source order. -/
def actionTokens : List String :=
  ["add", "remove", "change", "move", "online", "offline", "bind", "unbind"]

/-- The textual encoding of each action variant. -/
def actionToken : ActionType → String
  | .add => "add"
  | .remove => "remove"
  | .change => "change"
  | .move => "move"
  | .online => "online"
  | .offline => "offline"
  | .bind => "bind"
  | .unbind => "unbind"

/-- UTF-8 bytes of an ASCII string (for ASCII text the bytes coincide with
the code points); used to build concrete netlink packets. -/
def strToBytes (s : String) : List Nat :=
  s.data.map Char.toNat

/-- A `SEQNUM` line whose value does not parse aborts the step with
`Error::InvalidSeqNum` carrying the raw value. -/
theorem stepLine_seqnum_bad (st : MaybeUEvent) (v : String)
    (hv : parseU64 v = none) :
    stepLine st ("SEQNUM=" ++ v) = .error (.invalidSeqNum v) := by
  have hsplit : splitOnce '=' ("SEQNUM=" ++ v) = some ("SEQNUM", v) := by
    have h := splitOnce_key_value "SEQNUM" v (by decide)
    rwa [show ("SEQNUM" ++ "=" ++ v : String) = "SEQNUM=" ++ v from by
      rw [show ("SEQNUM" ++ "=" : String) = "SEQNUM=" from rfl]] at h
  unfold stepLine
  rw [hsplit]
  simp [hv]

/-- No branch of `stepLine` can produce `Error::InvalidDevPath`: the
`DEVPATH` conversion is infallible, and the other fallible branches raise
different errors. -/
theorem stepLine_ne_invalidDevPath (st : MaybeUEvent) (l s : String) :
    stepLine st l ≠ .error (.invalidDevPath s) := by
  unfold stepLine
  cases hs : splitOnce '=' l with
  | none => simp
  | some kv =>
    obtain ⟨key, value⟩ := kv
    simp only
    split_ifs with h1 h2 h3 h4
    · cases ha : ActionType.from_str value with
      | error e =>
        have := action_from_str_error value e ha
        subst this
        simp
      | ok a => simp
    · rw [show PathBuf.from_str value = some ⟨value⟩ from rfl]
      simp
    · simp
    · cases hq : parseU64 value with
      | none => simp
      | some n => simp
    · simp

/-- `parseLines` never returns `Error::InvalidDevPath`. -/
theorem parseLines_ne_invalidDevPath (lines : List String)
    (st : MaybeUEvent) (s : String) :
    parseLines st lines ≠ .error (.invalidDevPath s) := by
  induction lines generalizing st with
  | nil => simp [parseLines]
  | cons l ls ih =>
    unfold parseLines
    cases hstep : stepLine st l with
    | error e =>
      simp only
      intro hcontra
      injection hcontra with he
      subst he
      exact stepLine_ne_invalidDevPath st l s hstep
    | ok st1 => exact ih st1

/-! ## Claim theorems -/

/-- C2: `ActionType::from_str` succeeds exactly on the eight lowercase
tokens, mapping each to its variant; every other string fails with
`Error::UnexpectedAction` carrying the offending token verbatim. -/
theorem c2_action_from_str (s : String) :
    (∀ a : ActionType, ActionType.from_str s = .ok a ↔ s = actionToken a)
    ∧ (s ∉ actionTokens → ActionType.from_str s = .error (.unexpectedAction s)) := by
  constructor
  · intro a
    unfold ActionType.from_str
    split_ifs with h1 h2 h3 h4 h5 h6 h7 h8 <;> cases a <;>
      simp_all [actionToken]
  · intro hs
    simp only [actionTokens, List.mem_cons, not_or] at hs
    obtain ⟨n1, n2, n3, n4, n5, n6, n7, n8, -⟩ := hs
    unfold ActionType.from_str
    split_ifs
    all_goals simp_all

/-- C5: the field parser ignores every line without `=` (it contributes
nothing to the parse), and splits any other line at the first `=`: the key
is the text before the first `=`, the value everything after it, further
`=` characters included. -/
theorem c5_field_parser_split :
    (∀ (pre post : List String) (l : String), '=' ∉ l.data →
        parse_uevent_iter (pre ++ l :: post) = parse_uevent_iter (pre ++ post))
    ∧ (∀ k v : String, '=' ∉ k.data →
        splitOnce '=' (k ++ "=" ++ v) = some (k, v)) := by
  constructor
  · intro pre post l h
    unfold parse_uevent_iter
    rw [parseLines_append, parseLines_append]
    cases hp : parseLines emptyMaybe pre with
    | error e => rfl
    | ok st =>
      show parseLines st (l :: post) = parseLines st post
      rw [show parseLines st (l :: post)
            = (match stepLine st l with
               | .error e => .error e
               | .ok st1 => parseLines st1 post) from rfl,
         stepLine_no_eq st l h]
  · exact splitOnce_key_value

/-- C6: a buffer that is not valid UTF-8 makes `from_netlink_packet` fail
with `Error::NotUtf8`, before any field parsing: no other error can be
returned for such a buffer. -/
theorem c6_not_utf8 (pkt : List Nat) (h : utf8Decode pkt = none) :
    from_netlink_packet pkt = .error .notUtf8 := by
  unfold from_netlink_packet netlinkLines
  rw [h]
  rfl

/-- The concrete netlink packet of the spec's SEQNUM example. -/
def pkt3469 : List Nat :=
  strToBytes "add@/d/x\x00ACTION=add\x00DEVPATH=/d/x\x00SUBSYSTEM=tty\x00SEQNUM=3469"

/-- C7: a `SEQNUM` line whose value does not parse as an unsigned 64-bit
decimal integer (non-numeric or out of range) aborts the whole parse with
`Error::InvalidSeqNum` carrying the raw value; the well-formed
`SEQNUM=3469` packet decodes with `seq` exactly `3469`. -/
theorem c7_seqnum :
    (∀ (pre : List String) (st : MaybeUEvent) (v : String),
        parse_uevent_iter pre = .ok st → parseU64 v = none →
        parse_uevent_iter (pre ++ ["SEQNUM=" ++ v]) = .error (.invalidSeqNum v))
    ∧ from_netlink_packet pkt3469 =
        .ok ⟨.add, ⟨"/d/x"⟩, "tty",
          [("ACTION", "add"), ("DEVPATH", "/d/x"), ("SUBSYSTEM", "tty"),
           ("SEQNUM", "3469")], 3469⟩ := by
  constructor
  · intro pre st v hpre hv
    unfold parse_uevent_iter at *
    rw [parseLines_append, hpre]
    show parseLines st ["SEQNUM=" ++ v] = .error (.invalidSeqNum v)
    rw [show parseLines st ["SEQNUM=" ++ v]
          = (match stepLine st ("SEQNUM=" ++ v) with
             | .error e => .error e
             | .ok st1 => parseLines st1 []) from rfl,
       stepLine_seqnum_bad st v hv]
  · rfl

/-- C10: `Error::InvalidDevPath` is unreachable: the string-to-`PathBuf`
conversion is infallible, so neither the field parser nor either decoder
can ever return it. -/
theorem c10_invalid_devpath_unreachable :
    (∀ s : String, PathBuf.from_str s = some ⟨s⟩)
    ∧ (∀ (lines : List String) (s : String),
        parse_uevent_iter lines ≠ .error (.invalidDevPath s))
    ∧ (∀ (pkt : List Nat) (s : String),
        from_netlink_packet pkt ≠ .error (.invalidDevPath s))
    ∧ (∀ (d : SysfsDir) (mnt : List String) (s : String),
        from_sysfs_path d mnt ≠ .error (.invalidDevPath s)) := by
  refine ⟨fun s => rfl, fun lines s => parseLines_ne_invalidDevPath lines emptyMaybe s, ?_, ?_⟩
  · intro pkt s
    cases hnl : netlinkLines pkt with
    | none => simp [from_netlink_packet, hnl]
    | some lines =>
      cases hp : parse_uevent_iter lines with
      | error e =>
        simp only [from_netlink_packet, hnl, hp, ne_eq, Except.error.injEq]
        intro he
        subst he
        exact parseLines_ne_invalidDevPath lines emptyMaybe s hp
      | ok m =>
        simp only [from_netlink_packet, hnl, hp]
        obtain ⟨a, d, su, env, q⟩ := m
        cases a <;> cases d <;> cases su <;> cases q <;> simp
  · intro d mnt s
    obtain ⟨uc, sl, canon⟩ := d
    cases uc with
    | none => simp [from_sysfs_path]
    | some c =>
      cases sl with
      | none => simp [from_sysfs_path]
      | some l =>
        cases hp : parse_uevent_iter (linesOf c) with
        | error e =>
          simp only [from_sysfs_path, hp, ne_eq, Except.error.injEq]
          intro he
          subst he
          exact parseLines_ne_invalidDevPath (linesOf c) emptyMaybe s hp
        | ok m =>
          simp only [from_sysfs_path, hp]
          cases canon with
          | none => simp
          | some cn =>
            cases hca : componentsAfter mnt cn with
            | none => simp [hca]
            | some suffix =>
              cases hfn : fileNameOf l with
              | none => simp [hca, hfn]
              | some sub => simp [hca, hfn]

/-- C1: for a packet that is valid UTF-8 and parses without a field error,
`from_netlink_packet` fails iff one of the four recognized fields is
absent; each absence yields its own error, checked in the order action,
devpath, subsystem, seq; with all four present the decode succeeds with the
fully populated record. -/
theorem c1_netlink_required_fields (pkt : List Nat) (ls : List String)
    (m : MaybeUEvent) (h1 : netlinkLines pkt = some ls)
    (h2 : parse_uevent_iter ls = .ok m) :
    ((∃ e, from_netlink_packet pkt = .error e) ↔
      (m.action = none ∨ m.devpath = none ∨ m.subsystem = none ∨ m.seq = none))
    ∧ (m.action = none → from_netlink_packet pkt = .error .actionNotFound)
    ∧ (m.action ≠ none → m.devpath = none →
        from_netlink_packet pkt = .error .devPathNotFound)
    ∧ (m.action ≠ none → m.devpath ≠ none → m.subsystem = none →
        from_netlink_packet pkt = .error .subsystemNotFound)
    ∧ (m.action ≠ none → m.devpath ≠ none → m.subsystem ≠ none → m.seq = none →
        from_netlink_packet pkt = .error .seqMissing)
    ∧ (∀ a d su q, m.action = some a → m.devpath = some d →
        m.subsystem = some su → m.seq = some q →
        from_netlink_packet pkt = .ok ⟨a, d, su, m.env, q⟩) := by
  simp only [from_netlink_packet, h1, h2]
  obtain ⟨a, d, su, env, q⟩ := m
  cases a <;> cases d <;> cases su <;> cases q <;> simp
  intro a2 d2 su2 q2 ha hd hsu hq
  exact ⟨ha, hd, hsu, hq⟩

/-- Inversion of a successful netlink decode: the packet's lines parsed to
a partial record whose four slots carry exactly the returned fields, and
whose env is the returned env. -/
theorem from_netlink_packet_ok (pkt : List Nat) (ls : List String) (u : UEvent)
    (h1 : netlinkLines pkt = some ls) (h2 : from_netlink_packet pkt = .ok u) :
    ∃ m, parse_uevent_iter ls = .ok m ∧ m.action = some u.action
      ∧ m.devpath = some u.devpath ∧ m.subsystem = some u.subsystem
      ∧ m.seq = some u.seq ∧ m.env = u.env := by
  cases hp : parse_uevent_iter ls with
  | error e =>
    exfalso
    simp [from_netlink_packet, h1, hp] at h2
  | ok m =>
    obtain ⟨a, d, su, env, q⟩ := m
    refine ⟨⟨a, d, su, env, q⟩, rfl, ?_⟩
    simp only [from_netlink_packet, h1, hp] at h2
    cases a with
    | none => simp at h2
    | some a =>
      cases d with
      | none => simp at h2
      | some d =>
        cases su with
        | none => simp at h2
        | some su =>
          cases q with
          | none => simp at h2
          | some q =>
            simp only [Except.ok.injEq] at h2
            subst h2
            exact ⟨rfl, rfl, rfl, rfl, rfl⟩

/-- The netlink packet of the spec's SUBSYSTEM example with an empty value. -/
def pktEmptySub : List Nat :=
  strToBytes "ACTION=add\x00DEVPATH=/d\x00SUBSYSTEM=\x00SEQNUM=1"

/-- C4 counterexample: a packet whose `SUBSYSTEM=` line carries the empty
value decodes successfully, and the returned record's subsystem IS the
empty string — `from_netlink_packet` can return an empty subsystem. -/
theorem c4_counterexample :
    from_netlink_packet pktEmptySub =
      .ok ⟨.add, ⟨"/d"⟩, "",
        [("ACTION", "add"), ("DEVPATH", "/d"), ("SUBSYSTEM", ""), ("SEQNUM", "1")],
        1⟩ := rfl

/-- C4 (amended): the subsystem of a successful netlink decode is exactly
the value of the last `SUBSYSTEM` line of the packet, stored as-is — any
string, the empty string included. -/
theorem c4_subsystem_amended (pkt : List Nat) (ls : List String) (u : UEvent)
    (h1 : netlinkLines pkt = some ls) (h2 : from_netlink_packet pkt = .ok u) :
    lastAssocVal (kvsOf ls) "SUBSYSTEM" = some u.subsystem := by
  obtain ⟨m, hp, -, -, husub, -, -⟩ := from_netlink_packet_ok pkt ls u h1 h2
  have hsub := parseLines_subsystem ls emptyMaybe m hp
  calc lastAssocVal (kvsOf ls) "SUBSYSTEM" = m.subsystem := hsub.symm
    _ = some u.subsystem := husub

/-- C8: round-trip of the env mapping — every KEY=VALUE segment of a
successfully decoded netlink buffer is present, value-preserved, in the
returned record's env, and the map reading of the env resolves duplicate
keys last-write-wins over the segments. -/
theorem c8_env_roundtrip (pkt : List Nat) (ls : List String) (u : UEvent)
    (h1 : netlinkLines pkt = some ls) (h2 : from_netlink_packet pkt = .ok u) :
    ∀ k v, (k, v) ∈ kvsOf ls →
      ((k, v) ∈ u.env ∧ envGet u.env k = lastAssocVal (kvsOf ls) k
        ∧ envGet u.env k ≠ none) := by
  intro k v hkv
  obtain ⟨m, hp, -, -, -, -, henv⟩ := from_netlink_packet_ok pkt ls u h1 h2
  have henvm : m.env = kvsOf ls := by
    have h := parseLines_env ls emptyMaybe m hp
    simpa [emptyMaybe] using h
  rw [henv.symm.trans henvm]
  exact ⟨hkv, rfl, lastAssoc_foldl_ne_none k (kvsOf ls) none (Or.inr ⟨v, hkv⟩)⟩

/-- A readable device directory under the mountpoint whose `uevent` file
carries an invalid `ACTION` value. -/
def dirBadAction : SysfsDir :=
  ⟨some "ACTION=hello\x0aSUBSYSTEM=tty", some ["..", "class", "tty"],
    some ["sys", "devices", "x"]⟩

/-- C3 counterexample: a device directory whose subsystem link and uevent
file are readable and which lies under the mountpoint, but whose `uevent`
file contains `ACTION=hello` — the decode does NOT return an Add record;
it fails with the unexpected-action error, so the contents of the file's
ACTION line do affect the outcome. -/
theorem c3_counterexample :
    from_sysfs_path dirBadAction ["sys"] = .error (.unexpectedAction "hello") := rfl

/-- C3 (amended): whenever the `uevent` file parses without a field error,
a successful `from_sysfs_path` decode has action `Add` and seq `0`, and
keeps only the env mapping of the parse (the parsed ACTION/SEQNUM slots are
discarded); but a field error while parsing the file (invalid ACTION or
SEQNUM value) aborts the decode with that error. -/
theorem c3_sysfs_amended :
    (∀ (d : SysfsDir) (mnt : List String) (u : UEvent),
        from_sysfs_path d mnt = .ok u → u.action = .add ∧ u.seq = 0)
    ∧ (∀ (c : String) (link canon : Option (List String)) (mnt : List String)
        (m : MaybeUEvent) (u : UEvent),
        parse_uevent_iter (linesOf c) = .ok m →
        from_sysfs_path ⟨some c, link, canon⟩ mnt = .ok u → u.env = m.env)
    ∧ (∀ (c : String) (sl : List String) (canon : Option (List String))
        (mnt : List String) (e : Error),
        parse_uevent_iter (linesOf c) = .error e →
        from_sysfs_path ⟨some c, some sl, canon⟩ mnt = .error e) := by
  refine ⟨?_, ?_, ?_⟩
  · intro d mnt u h
    obtain ⟨uc, sl, canon⟩ := d
    cases uc with
    | none => simp [from_sysfs_path] at h
    | some c =>
      cases sl with
      | none => simp [from_sysfs_path] at h
      | some l =>
        cases hp : parse_uevent_iter (linesOf c) with
        | error e => simp [from_sysfs_path, hp] at h
        | ok m =>
          cases canon with
          | none => simp [from_sysfs_path, hp] at h
          | some cn =>
            cases hca : componentsAfter mnt cn with
            | none => simp [from_sysfs_path, hp, hca] at h
            | some suffix =>
              cases hfn : fileNameOf l with
              | none => simp [from_sysfs_path, hp, hca, hfn] at h
              | some sub =>
                simp only [from_sysfs_path, hp, hca, hfn, Except.ok.injEq] at h
                subst h
                exact ⟨rfl, rfl⟩
  · intro c link canon mnt m u hp h
    cases link with
    | none => simp [from_sysfs_path] at h
    | some l =>
      cases canon with
      | none => simp [from_sysfs_path, hp] at h
      | some cn =>
        cases hca : componentsAfter mnt cn with
        | none => simp [from_sysfs_path, hp, hca] at h
        | some suffix =>
          cases hfn : fileNameOf l with
          | none => simp [from_sysfs_path, hp, hca, hfn] at h
          | some sub =>
            simp only [from_sysfs_path, hp, hca, hfn, Except.ok.injEq] at h
            subst h
            rfl
  · intro c sl canon mnt e hp
    simp [from_sysfs_path, hp]

/-- C9: the canonical path lies under the mountpoint exactly when the
mountpoint's components are a prefix of it; when it does not, the decode
(with readable, parseable inputs) fails with the mountpoint-escape error;
when it does, the returned devpath is the stripped suffix re-rooted at
`/`. -/
theorem c9_mountpoint :
    (∀ pre p s : List String, componentsAfter pre p = some s ↔ p = pre ++ s)
    ∧ (∀ (c : String) (sl canon mnt : List String) (m : MaybeUEvent),
        parse_uevent_iter (linesOf c) = .ok m →
        componentsAfter mnt canon = none →
        from_sysfs_path ⟨some c, some sl, some canon⟩ mnt
          = .error .notInsideMountpoint)
    ∧ (∀ (c : String) (sl canon mnt suffix : List String) (u : UEvent),
        componentsAfter mnt canon = some suffix →
        from_sysfs_path ⟨some c, some sl, some canon⟩ mnt = .ok u →
        u.devpath = joinRoot suffix) := by
  refine ⟨?_, ?_, ?_⟩
  · intro pre p s
    induction pre generalizing p with
    | nil => simp [componentsAfter]
    | cons a xs ih =>
      cases p with
      | nil => simp [componentsAfter]
      | cons b ys =>
        by_cases hab : a = b
        · subst hab
          simp [componentsAfter, ih]
        · have hba : ¬(b = a) := fun hh => hab hh.symm
          simp [componentsAfter, hab, hba]
  · intro c sl canon mnt m hp hca
    simp [from_sysfs_path, hp, hca]
  · intro c sl canon mnt suffix u hca h
    cases hp : parse_uevent_iter (linesOf c) with
    | error e => simp [from_sysfs_path, hp] at h
    | ok m =>
      cases hfn : fileNameOf sl with
      | none => simp [from_sysfs_path, hp, hca, hfn] at h
      | some sub =>
        simp only [from_sysfs_path, hp, hca, hfn, Except.ok.injEq] at h
        subst h
        rfl

/-! ## Witnesses: each claim theorem with hypotheses, applied at a concrete
input with every hypothesis discharged there. -/

/-- A netlink packet missing its `SUBSYSTEM` field. -/
def pktNoSub : List Nat :=
  strToBytes "add@/d\x00ACTION=add\x00DEVPATH=/d\x00SEQNUM=7"

/-- C1 witness: the packet missing `SUBSYSTEM` fails with exactly the
subsystem-not-found error. -/
theorem c1_witness :
    from_netlink_packet pktNoSub = .error .subsystemNotFound :=
  (c1_netlink_required_fields pktNoSub
      ["add@/d", "ACTION=add", "DEVPATH=/d", "SEQNUM=7"]
      ⟨some .add, some ⟨"/d"⟩, none,
        [("ACTION", "add"), ("DEVPATH", "/d"), ("SEQNUM", "7")], some 7⟩
      rfl rfl).2.2.2.1 (by decide) (by decide) rfl

/-- C2 witness: `"hello"` is rejected verbatim, `"add"` maps to `Add`. -/
theorem c2_witness :
    ActionType.from_str "hello" = .error (.unexpectedAction "hello")
    ∧ ActionType.from_str "add" = .ok .add :=
  ⟨(c2_action_from_str "hello").2 (by decide),
   ((c2_action_from_str "add").1 .add).mpr rfl⟩

/-- A readable device directory under the mountpoint with a benign uevent
file. -/
def dirGood : SysfsDir :=
  ⟨some "MAJOR=4\x0aMINOR=70", some ["..", "class", "tty"],
    some ["sys", "devices", "x"]⟩

/-- C3 witness: a successful sysfs decode, with action `Add` and seq `0`
certified through the amended theorem. -/
theorem c3_witness :
    from_sysfs_path dirGood ["sys"]
        = .ok ⟨.add, ⟨"/devices/x"⟩, "tty", [("MAJOR", "4"), ("MINOR", "70")], 0⟩
    ∧ ((UEvent.mk .add ⟨"/devices/x"⟩ "tty" [("MAJOR", "4"), ("MINOR", "70")] 0).action
          = .add
        ∧ (UEvent.mk .add ⟨"/devices/x"⟩ "tty" [("MAJOR", "4"), ("MINOR", "70")] 0).seq
          = 0) :=
  ⟨rfl,
   c3_sysfs_amended.1 dirGood ["sys"]
     ⟨.add, ⟨"/devices/x"⟩, "tty", [("MAJOR", "4"), ("MINOR", "70")], 0⟩ rfl⟩

/-- C4 witness: on the empty-`SUBSYSTEM` packet the amended theorem yields
the empty string as the recorded subsystem value. -/
theorem c4_witness :
    lastAssocVal
        (kvsOf ["ACTION=add", "DEVPATH=/d", "SUBSYSTEM=", "SEQNUM=1"])
        "SUBSYSTEM" = some "" :=
  c4_subsystem_amended pktEmptySub
    ["ACTION=add", "DEVPATH=/d", "SUBSYSTEM=", "SEQNUM=1"]
    ⟨.add, ⟨"/d"⟩, "",
      [("ACTION", "add"), ("DEVPATH", "/d"), ("SUBSYSTEM", ""), ("SEQNUM", "1")], 1⟩
    rfl rfl

/-- C5 witness: the header line without `=` is ignored; a value keeps its
own `=` characters. -/
theorem c5_witness :
    parse_uevent_iter ["add@/devices/x", "ACTION=add"]
        = parse_uevent_iter ["ACTION=add"]
    ∧ splitOnce '=' ("KEY" ++ "=" ++ "a=b") = some ("KEY", "a=b") :=
  ⟨c5_field_parser_split.1 [] ["ACTION=add"] "add@/devices/x" (by decide),
   c5_field_parser_split.2 "KEY" "a=b" (by decide)⟩

/-- C6 witness: the single byte `0xFF` is not UTF-8 and decoding it fails
with the not-UTF-8 error. -/
theorem c6_witness :
    utf8Decode [255] = none ∧ from_netlink_packet [255] = .error .notUtf8 :=
  ⟨rfl, c6_not_utf8 [255] rfl⟩

/-- C7 witness: a non-numeric and an out-of-range SEQNUM value each abort
the parse with the invalid-seqnum error carrying the raw value. -/
theorem c7_witness :
    parse_uevent_iter ["SEQNUM=" ++ "abc"] = .error (.invalidSeqNum "abc")
    ∧ parse_uevent_iter ["SEQNUM=" ++ "18446744073709551616"]
        = .error (.invalidSeqNum "18446744073709551616") :=
  ⟨c7_seqnum.1 [] emptyMaybe "abc" rfl rfl,
   c7_seqnum.1 [] emptyMaybe "18446744073709551616" rfl (by decide)⟩

/-- A netlink packet with a duplicated `X` key. -/
def pktDup : List Nat :=
  strToBytes "ACTION=add\x00DEVPATH=/d\x00SUBSYSTEM=tty\x00SEQNUM=1\x00X=1\x00X=2"

/-- C8 witness: on the duplicated-key packet, the pair `(X, 1)` is kept in
the env history and the map reading resolves `X` last-write-wins. -/
theorem c8_witness :
    ("X", "1") ∈
        ([("ACTION", "add"), ("DEVPATH", "/d"), ("SUBSYSTEM", "tty"),
          ("SEQNUM", "1"), ("X", "1"), ("X", "2")] : List (String × String))
    ∧ envGet
        [("ACTION", "add"), ("DEVPATH", "/d"), ("SUBSYSTEM", "tty"),
          ("SEQNUM", "1"), ("X", "1"), ("X", "2")] "X"
        = lastAssocVal
            (kvsOf ["ACTION=add", "DEVPATH=/d", "SUBSYSTEM=tty", "SEQNUM=1",
              "X=1", "X=2"]) "X"
    ∧ envGet
        [("ACTION", "add"), ("DEVPATH", "/d"), ("SUBSYSTEM", "tty"),
          ("SEQNUM", "1"), ("X", "1"), ("X", "2")] "X" ≠ none :=
  c8_env_roundtrip pktDup
    ["ACTION=add", "DEVPATH=/d", "SUBSYSTEM=tty", "SEQNUM=1", "X=1", "X=2"]
    ⟨.add, ⟨"/d"⟩, "tty",
      [("ACTION", "add"), ("DEVPATH", "/d"), ("SUBSYSTEM", "tty"),
        ("SEQNUM", "1"), ("X", "1"), ("X", "2")], 1⟩
    rfl rfl "X" "1" (by decide)

/-- C9 witness: prefix-stripping characterized on a concrete path, a
mountpoint escape failing, and the devpath of a concrete successful decode
being the re-rooted suffix. -/
theorem c9_witness :
    (componentsAfter ["sys"] ["sys", "devices", "x"] = some ["devices", "x"]
      ↔ (["sys", "devices", "x"] : List String) = ["sys"] ++ ["devices", "x"])
    ∧ from_sysfs_path ⟨some "MAJOR=4", some ["..", "tty"], some ["proc", "x"]⟩
        ["sys"] = .error .notInsideMountpoint
    ∧ (UEvent.mk .add (joinRoot ["devices", "x"]) "tty" [("MAJOR", "4")] 0).devpath
        = joinRoot ["devices", "x"] :=
  ⟨c9_mountpoint.1 ["sys"] ["sys", "devices", "x"] ["devices", "x"],
   c9_mountpoint.2.1 "MAJOR=4" ["..", "tty"] ["proc", "x"] ["sys"]
     ⟨none, none, none, [("MAJOR", "4")], none⟩ rfl rfl,
   c9_mountpoint.2.2 "MAJOR=4" ["..", "class", "tty"] ["sys", "devices", "x"]
     ["sys"] ["devices", "x"]
     ⟨.add, joinRoot ["devices", "x"], "tty", [("MAJOR", "4")], 0⟩ rfl rfl⟩

/-- C10 witness: concrete instances of the unreachability of the
invalid-devpath error. -/
theorem c10_witness :
    parse_uevent_iter ["DEVPATH=/x"] ≠ .error (.invalidDevPath "/x")
    ∧ from_netlink_packet [255] ≠ .error (.invalidDevPath "/x") :=
  ⟨c10_invalid_devpath_unreachable.2.1 ["DEVPATH=/x"] "/x",
   c10_invalid_devpath_unreachable.2.2.1 [255] "/x"⟩

end KUEvent
